import Mathlib

set_option maxHeartbeats 800000

/-!
Shallow embedding of the streaming-chat client core of the rfp-agent
repository: the transcript data model, the reducer-based turn
reconstructor, the SSE transport outcomes as observed by handleSend,
and the session initialisation paths.
-/

namespace Chat

/-- Status of one tool-activity ledger entry. -/
inductive TAStatus where
  | running
  | done
deriving DecidableEq

/-- One entry of an assistant turn's tool-activity ledger. -/
structure ToolActivity where
  tool : String
  status : TAStatus
deriving DecidableEq

/-- Role of a chat turn. -/
inductive Role where
  | user
  | assistant
deriving DecidableEq

/-- One turn of the transcript.  The random UUID id and the optional
persisted timestamp carried by the TypeScript interface are omitted:
they are opaque to every reducer transition. -/
structure ChatMessage where
  role : Role
  content : String
  isStreaming : Bool
  toolActivity : List ToolActivity
deriving DecidableEq

/-- Reducer actions, mirroring the TypeScript Action union. -/
inductive Action where
  | userSend (content : String)
  | assistantStart
  | delta (content : String)
  | status (status : String)
  | message (content : String)
  | toolStart (tool : String)
  | toolEnd (tool : String)
  | done
  | error (message : String)
  | loadHistory (messages : List ChatMessage)
  | setSessionId (sessionId : String)
  | setInitializing (value : Bool)
deriving DecidableEq

/-- The reducer state of the Chat component. -/
structure State where
  messages : List ChatMessage
  isStreaming : Bool
  sessionId : Option String
  isInitializing : Bool
deriving DecidableEq

/-- Replace the trailing element of a list, as the TypeScript pattern of
writing to the index length minus one does; on an empty list this is the
identity, matching the fact that such a write does not extend an empty
array. -/
def updateLast {α : Type} (f : α → α) : List α → List α
  | [] => []
  | a :: rest =>
    match rest with
    | [] => [f a]
    | b :: bs => a :: updateLast f (b :: bs)

/-- Transition a running ledger entry to done, leave others unchanged. -/
def markRunningDone (ta : ToolActivity) : ToolActivity :=
  if ta.status = TAStatus.running then { ta with status := TAStatus.done } else ta

/-- Per-entry update of the TOOL_END reducer case. -/
def endTool (tool : String) (ta : ToolActivity) : ToolActivity :=
  if ta.tool = tool ∧ ta.status = TAStatus.running
  then { ta with status := TAStatus.done } else ta

/-- Field prefix of tool-scoped status markers. -/
def toolTag : String := "tool:"

/-- Model of the JavaScript startsWith test, expressed over the
character data so that it evaluates by kernel reduction. -/
def strStartsWith (s p : String) : Bool := p.data.isPrefixOf s.data

/-- Model of the JavaScript slice from a character index, expressed over
the character data so that it evaluates by kernel reduction. -/
def strDrop (s : String) (n : Nat) : String := ⟨s.data.drop n⟩

/-- Error note appended by the ERROR reducer case. -/
def errorNote (message : String) : String := "\n\n**Error:** " ++ message

/-- Ledger update of the STATUS reducer case for a tool-scoped status:
mark every running entry done, then push the named tool as running
unless the freshly reset ledger still holds it as running (the guard
the TypeScript computes as its alreadyTracked flag). -/
def statusToolLedger (tool : String) (l : List ToolActivity) : List ToolActivity :=
  let activity := l.map markRunningDone
  if activity.any (fun ta => ta.tool == tool && ta.status == TAStatus.running)
  then activity
  else activity ++ [⟨tool, TAStatus.running⟩]

/-- The chat reducer, a direct embedding of the TypeScript reducer. -/
def reducer (state : State) (action : Action) : State :=
  match action with
  | Action.setSessionId sid => { state with sessionId := some sid }
  | Action.setInitializing v => { state with isInitializing := v }
  | Action.loadHistory ms => { state with messages := ms }
  | Action.userSend c =>
      { state with
        messages := state.messages ++
          [{ role := Role.user, content := c, isStreaming := false, toolActivity := [] }],
        isStreaming := true }
  | Action.assistantStart =>
      { state with
        messages := state.messages ++
          [{ role := Role.assistant, content := "", isStreaming := true, toolActivity := [] }] }
  | Action.delta c =>
      { state with
        messages := updateLast (fun last =>
          { last with content := last.content ++ c }) state.messages }
  | Action.status st =>
      { state with
        messages := updateLast (fun last =>
          if strStartsWith st toolTag then
            { last with toolActivity := statusToolLedger (strDrop st 5) last.toolActivity }
          else
            { last with toolActivity := last.toolActivity.map markRunningDone })
          state.messages }
  | Action.message c =>
      { state with
        messages := updateLast (fun last =>
          { last with content := c, toolActivity := last.toolActivity.map markRunningDone })
          state.messages }
  | Action.toolStart t =>
      { state with
        messages := updateLast (fun last =>
          { last with toolActivity := last.toolActivity ++ [⟨t, TAStatus.running⟩] })
          state.messages }
  | Action.toolEnd t =>
      { state with
        messages := updateLast (fun last =>
          { last with toolActivity := last.toolActivity.map (endTool t) })
          state.messages }
  | Action.done =>
      { state with
        messages := updateLast (fun last => { last with isStreaming := false }) state.messages,
        isStreaming := false }
  | Action.error emsg =>
      { state with
        messages :=
          match state.messages.getLast? with
          | some last =>
              if last.role = Role.assistant then
                updateLast (fun l =>
                  { l with content := l.content ++ errorNote emsg, isStreaming := false })
                  state.messages
              else state.messages
          | none => state.messages,
        isStreaming := false }

/-- Initial reducer state of the Chat component. -/
def initialState : State :=
  { messages := [], isStreaming := false, sessionId := none, isInitializing := true }

/-- Content of the trailing turn, if any. -/
def trailingContent (s : State) : Option String :=
  (s.messages.getLast?).map ChatMessage.content

/-- Role of the trailing turn, if any. -/
def trailingRole (s : State) : Option Role :=
  (s.messages.getLast?).map ChatMessage.role

/-- Tool-activity ledger of the trailing turn (empty when no turn exists). -/
def ledgerLast (s : State) : List ToolActivity :=
  match s.messages.getLast? with
  | some m => m.toolActivity
  | none => []

/-- Number of running ledger entries carrying one tool name. -/
def runningFor (t : String) (l : List ToolActivity) : Nat :=
  l.countP (fun ta => ta.tool == t && ta.status == TAStatus.running)

/-- At most one running entry per tool name. -/
def ledgerInv (l : List ToolActivity) : Prop := ∀ t, runningFor t l ≤ 1

/-- The actions produced by streaming events, as opposed to the session
management actions. -/
def streamingEvent : Action → Bool
  | Action.delta _ => true
  | Action.status _ => true
  | Action.message _ => true
  | Action.toolStart _ => true
  | Action.toolEnd _ => true
  | Action.done => true
  | Action.error _ => true
  | _ => false

/-- Fold a list of actions through the reducer. -/
def applyActions (s : State) (as : List Action) : State := as.foldl reducer s

/-- Guard for one event: a tool_start may only name a tool with no
running ledger entry in the current trailing turn. -/
def freshGuard (s : State) : Action → Bool
  | Action.toolStart t => decide (runningFor t (ledgerLast s) = 0)
  | _ => true

/-- A sequence of streaming events in which tool_start is only ever fired
for a tool that has no running ledger entry at that point. -/
def safeSeq (s : State) (as : List Action) : Bool :=
  match as with
  | [] => true
  | a :: rest => streamingEvent a && freshGuard s a && safeSeq (reducer s a) rest

/-- Wire events of the SSE stream, mirroring the SSEEvent union of the
type declarations. -/
inductive SSEEvent where
  | delta (content : String)
  | message (content : String)
  | status (status : String)
  | toolStart (tool : String)
  | toolEnd (tool : String)
  | done
  | error (message : String)
deriving DecidableEq

/-- Dispatch table of handleSSEEvent. -/
def actionOfEvent : SSEEvent → Action
  | SSEEvent.delta c => Action.delta c
  | SSEEvent.message c => Action.message c
  | SSEEvent.status st => Action.status st
  | SSEEvent.toolStart t => Action.toolStart t
  | SSEEvent.toolEnd t => Action.toolEnd t
  | SSEEvent.done => Action.done
  | SSEEvent.error m => Action.error m

/-- Fold a list of wire events through the reducer via the dispatch. -/
def applyEvents (s : State) (evs : List SSEEvent) : State :=
  evs.foldl (fun st e => reducer st (actionOfEvent e)) s

/-- Outcome of one streamSSE iteration as observed by handleSend: the
events delivered, and how the iteration ended (normal exhaustion, a
non-success response, a caller abort, or another thrown failure). -/
inductive StreamOutcome where
  | ok (events : List SSEEvent)
  | httpError (statusCode : Nat) (statusText : String)
  | aborted (events : List SSEEvent)
  | failed (events : List SSEEvent) (message : String)

/-- Message of the synthetic error event built for a non-ok response. -/
def httpMsg (statusCode : Nat) (statusText : String) : String :=
  "HTTP " ++ toString statusCode ++ ": " ++ statusText

/-- Events yielded by streamSSE: a non-ok response yields exactly one
synthetic error event and ends the sequence; otherwise the delivered
events are passed through. -/
def streamEvents : StreamOutcome → List SSEEvent
  | StreamOutcome.ok evs => evs
  | StreamOutcome.httpError sc stx => [SSEEvent.error (httpMsg sc stx)]
  | StreamOutcome.aborted evs => evs
  | StreamOutcome.failed evs _ => evs

/-- The two dispatches handleSend performs before consuming the stream. -/
def afterStart (s : State) (c : String) : State :=
  reducer (reducer s (Action.userSend c)) Action.assistantStart

/-- handleSend: play the delivered events into the reducer, then dispatch
DONE on normal completion, nothing further on an AbortError, and ERROR
on any other thrown failure. -/
def handleSend (s : State) (c : String) (o : StreamOutcome) : State :=
  match o with
  | StreamOutcome.ok evs =>
      reducer (applyEvents (afterStart s c) evs) Action.done
  | StreamOutcome.httpError sc stx =>
      reducer (applyEvents (afterStart s c) (streamEvents (StreamOutcome.httpError sc stx)))
        Action.done
  | StreamOutcome.aborted evs => applyEvents (afterStart s c) evs
  | StreamOutcome.failed evs m =>
      reducer (applyEvents (afterStart s c) evs) (Action.error m)

/-- Result of the getSession call during initialisation. -/
inductive FetchResult where
  | active (history : List ChatMessage)
  | inactive
  | failed
deriving DecidableEq

/-- Result of the createSession call. -/
inductive CreateResult where
  | ok (sessionId : String)
  | failed

/-- Fresh-session branch shared by the init effect and handleNewChat:
dispatch SET_SESSION_ID on success, only log on failure, and dispatch
SET_INITIALIZING false either way. -/
def createFresh (s : State) : CreateResult → State
  | CreateResult.ok sid =>
      reducer (reducer s (Action.setSessionId sid)) (Action.setInitializing false)
  | CreateResult.failed =>
      reducer s (Action.setInitializing false)

/-- The init effect of the Chat component for an uncancelled run: adopt
the stored session when it is still active and load its history,
otherwise fall through to creating a fresh session.  Local-storage
writes are outside the reducer state. -/
def initSession (s : State) (stored : Option String) (fetched : FetchResult)
    (created : CreateResult) : State :=
  match stored with
  | some sid =>
      match fetched with
      | FetchResult.active history =>
          reducer
            (reducer (reducer s (Action.setSessionId sid)) (Action.loadHistory history))
            (Action.setInitializing false)
      | _ => createFresh s created
  | none => createFresh s created

/-- handleNewChat for an already-idle stream: enter the initializing
phase, clear the transcript, create a fresh session (only logging on
failure), and leave the initializing phase. -/
def handleNewChat (s : State) (created : CreateResult) : State :=
  createFresh
    (reducer (reducer s (Action.setInitializing true)) (Action.loadHistory [])) created

/-! Helper lemmas about updateLast and the ledger maps. -/

theorem updateLast_concat {α : Type} (f : α → α) (l : List α) (a : α) :
    updateLast f (l ++ [a]) = l ++ [f a] := by
  induction l with
  | nil => rfl
  | cons b bs ih =>
    cases bs with
    | nil => rfl
    | cons c cs =>
      show b :: updateLast f ((c :: cs) ++ [a]) = b :: ((c :: cs) ++ [f a])
      rw [ih]

theorem length_updateLast {α : Type} (f : α → α) (l : List α) :
    (updateLast f l).length = l.length := by
  rcases l.eq_nil_or_concat' with rfl | ⟨bs, b, rfl⟩
  · rfl
  · rw [updateLast_concat]
    simp

theorem dropLast_updateLast {α : Type} (f : α → α) (l : List α) :
    (updateLast f l).dropLast = l.dropLast := by
  rcases l.eq_nil_or_concat' with rfl | ⟨bs, b, rfl⟩
  · rfl
  · rw [updateLast_concat, List.dropLast_concat, List.dropLast_concat]

theorem getLast?_updateLast {α : Type} (f : α → α) (l : List α) :
    (updateLast f l).getLast? = l.getLast?.map f := by
  rcases l.eq_nil_or_concat' with rfl | ⟨bs, b, rfl⟩
  · rfl
  · rw [updateLast_concat, List.getLast?_concat, List.getLast?_concat]
    rfl

theorem tool_markRunningDone (ta : ToolActivity) :
    (markRunningDone ta).tool = ta.tool := by
  unfold markRunningDone
  split <;> rfl

theorem status_markRunningDone (ta : ToolActivity) :
    (markRunningDone ta).status = TAStatus.done := by
  unfold markRunningDone
  split
  · rfl
  · rename_i h
    cases hts : ta.status
    · exact absurd hts h
    · rfl

/-- The ERROR case rewrites the trailing message with a function that is
the identity on non-assistant turns. -/
theorem error_messages_shape (s : State) (emsg : String) :
    (reducer s (Action.error emsg)).messages =
      updateLast (fun (l : ChatMessage) =>
        if l.role = Role.assistant then
          { l with content := l.content ++ errorNote emsg, isStreaming := false }
        else l) s.messages := by
  show (match s.messages.getLast? with
    | some last =>
        if last.role = Role.assistant then
          updateLast (fun (l : ChatMessage) =>
            { l with content := l.content ++ errorNote emsg, isStreaming := false })
            s.messages
        else s.messages
    | none => s.messages) = _
  rcases s.messages.eq_nil_or_concat' with h0 | ⟨bs, b, h0⟩
  · rw [h0]
    rfl
  · rw [h0, List.getLast?_concat, updateLast_concat]
    by_cases hr : b.role = Role.assistant
    · simp only [hr, if_true, updateLast_concat]
    · simp only [if_neg hr, updateLast_concat]

/-- Every streaming event acts on the state by rewriting only the
trailing message with a role-preserving function, leaving the session
id and the initializing flag alone. -/
theorem reducer_shape (s : State) (a : Action) (ha : streamingEvent a = true) :
    ∃ f : ChatMessage → ChatMessage,
      (∀ m, (f m).role = m.role) ∧
      (reducer s a).messages = updateLast f s.messages ∧
      (reducer s a).sessionId = s.sessionId ∧
      (reducer s a).isInitializing = s.isInitializing := by
  cases a with
  | userSend c => exact Bool.noConfusion ha
  | assistantStart => exact Bool.noConfusion ha
  | loadHistory ms => exact Bool.noConfusion ha
  | setSessionId sid => exact Bool.noConfusion ha
  | setInitializing v => exact Bool.noConfusion ha
  | delta c =>
      exact ⟨fun last => { last with content := last.content ++ c },
        fun m => rfl, rfl, rfl, rfl⟩
  | status st =>
      refine ⟨fun last =>
        if strStartsWith st toolTag then
          { last with toolActivity := statusToolLedger (strDrop st 5) last.toolActivity }
        else
          { last with toolActivity := last.toolActivity.map markRunningDone },
        ?_, rfl, rfl, rfl⟩
      intro m
      by_cases hb : strStartsWith st toolTag = true <;> simp [hb]
  | message c =>
      exact ⟨fun last =>
        { last with content := c, toolActivity := last.toolActivity.map markRunningDone },
        fun m => rfl, rfl, rfl, rfl⟩
  | toolStart t =>
      exact ⟨fun last =>
        { last with toolActivity := last.toolActivity ++ [⟨t, TAStatus.running⟩] },
        fun m => rfl, rfl, rfl, rfl⟩
  | toolEnd t =>
      exact ⟨fun last =>
        { last with toolActivity := last.toolActivity.map (endTool t) },
        fun m => rfl, rfl, rfl, rfl⟩
  | done =>
      exact ⟨fun last => { last with isStreaming := false },
        fun m => rfl, rfl, rfl, rfl⟩
  | error emsg =>
      refine ⟨fun l =>
        if l.role = Role.assistant then
          { l with content := l.content ++ errorNote emsg, isStreaming := false }
        else l, ?_, error_messages_shape s emsg, rfl, rfl⟩
      intro m
      by_cases hr : m.role = Role.assistant <;> simp [hr]

/-! Concrete fixtures used by witnesses and counterexamples. -/

/-- A freshly begun assistant turn. -/
def freshAssistant : ChatMessage :=
  { role := Role.assistant, content := "", isStreaming := true, toolActivity := [] }

/-- A streaming state holding one fresh assistant turn. -/
def freshState : State :=
  { messages := [freshAssistant], isStreaming := true, sessionId := none,
    isInitializing := false }

/-- An assistant turn with partial content and one running tool. -/
def partialAssistant : ChatMessage :=
  { role := Role.assistant, content := "partial", isStreaming := true,
    toolActivity := [⟨"search", TAStatus.running⟩] }

/-- A streaming state holding the partial assistant turn. -/
def partialState : State :=
  { messages := [partialAssistant], isStreaming := true, sessionId := none,
    isInitializing := false }

/-- A finalized user turn. -/
def userTurn : ChatMessage :=
  { role := Role.user, content := "hi", isStreaming := false, toolActivity := [] }

/-- A state whose trailing turn is a user turn. -/
def userTrailState : State :=
  { messages := [userTurn],
    isStreaming := true, sessionId := none, isInitializing := false }

/-! Claim theorems. -/

/-- C10: applying an error event always clears the transcript-level
isStreaming flag, even when the event is dropped because the transcript
is empty or trails with a user turn, and applying done clears it as
well, regardless of the trailing turn's role. -/
theorem c10_terminal_events_clear_streaming (s : State) (emsg : String) :
    (reducer s (Action.error emsg)).isStreaming = false ∧
    (reducer s Action.done).isStreaming = false :=
  ⟨rfl, rfl⟩

/-- C9: on a non-empty transcript, every single streaming event leaves
the session id, the initializing flag, the turn count and every earlier
turn unchanged, and replaces the trailing turn by a single new value. -/
theorem c9_streaming_events_touch_only_trailing_turn (s : State) (a : Action)
    (h : s.messages ≠ []) (ha : streamingEvent a = true) :
    (reducer s a).sessionId = s.sessionId ∧
    (reducer s a).isInitializing = s.isInitializing ∧
    (reducer s a).messages.length = s.messages.length ∧
    (reducer s a).messages.dropLast = s.messages.dropLast ∧
    ∃ m', (reducer s a).messages = s.messages.dropLast ++ [m'] := by
  obtain ⟨f, _, hmsg, hsid, hinit⟩ := reducer_shape s a ha
  refine ⟨hsid, hinit, ?_, ?_, ?_⟩
  · rw [hmsg, length_updateLast]
  · rw [hmsg, dropLast_updateLast]
  · rcases s.messages.eq_nil_or_concat' with h0 | ⟨bs, b, h0⟩
    · exact absurd h0 h
    · refine ⟨f b, ?_⟩
      rw [hmsg, h0, updateLast_concat, List.dropLast_concat]

/-- Witness for C9 at a concrete state and the done event. -/
theorem c9_witness :
    (reducer freshState Action.done).sessionId = freshState.sessionId ∧
    (reducer freshState Action.done).isInitializing = freshState.isInitializing ∧
    (reducer freshState Action.done).messages.length = freshState.messages.length ∧
    (reducer freshState Action.done).messages.dropLast = freshState.messages.dropLast ∧
    ∃ m', (reducer freshState Action.done).messages =
      freshState.messages.dropLast ++ [m'] :=
  c9_streaming_events_touch_only_trailing_turn freshState Action.done
    (by simp [freshState]) rfl

/-- Concatenation of a list of strings in order. -/
def concatAll : List String → String
  | [] => ""
  | d :: ds => d ++ concatAll ds

theorem trailingContent_delta (s : State) (c : String) :
    trailingContent (reducer s (Action.delta c)) =
      (trailingContent s).map (fun t => t ++ c) := by
  show ((updateLast (fun last => { last with content := last.content ++ c })
      s.messages).getLast?).map ChatMessage.content = _
  rw [getLast?_updateLast]
  unfold trailingContent
  cases s.messages.getLast? <;> rfl

/-- C5: a sequence of delta events appends the concatenation of the
payloads, in receipt order, to the trailing turn's content. -/
theorem c5_delta_concatenation (s : State) (ds : List String) :
    trailingContent (applyActions s (ds.map Action.delta)) =
      (trailingContent s).map (fun t => t ++ concatAll ds) := by
  induction ds generalizing s with
  | nil =>
      show trailingContent s = _
      cases h : trailingContent s <;> simp [concatAll]
  | cons d ds ih =>
      show trailingContent
        (applyActions (reducer s (Action.delta d)) (ds.map Action.delta)) = _
      rw [ih, trailingContent_delta]
      cases trailingContent s
      · rfl
      · simp [concatAll, String.append_assoc]

/-- C6: a message event overwrites the trailing turn's content with the
payload, whatever deltas had accumulated, and transitions every running
ledger entry to done while preserving the ledger's names and order. -/
theorem c6_message_overwrites (s : State) (init : List ChatMessage) (m : ChatMessage)
    (h : s.messages = init ++ [m]) (c : String) :
    ∃ m', (reducer s (Action.message c)).messages = init ++ [m'] ∧
      m'.content = c ∧ m'.role = m.role ∧ m'.isStreaming = m.isStreaming ∧
      m'.toolActivity.map ToolActivity.tool = m.toolActivity.map ToolActivity.tool ∧
      ∀ ta ∈ m'.toolActivity, ta.status = TAStatus.done := by
  refine ⟨{ m with content := c, toolActivity := m.toolActivity.map markRunningDone },
    ?_, rfl, rfl, rfl, ?_, ?_⟩
  · show updateLast (fun last =>
      { last with content := c, toolActivity := last.toolActivity.map markRunningDone })
      s.messages = _
    rw [h, updateLast_concat]
  · show (m.toolActivity.map markRunningDone).map ToolActivity.tool =
      m.toolActivity.map ToolActivity.tool
    rw [List.map_map]
    exact List.map_congr_left (fun ta _ => tool_markRunningDone ta)
  · intro ta hta
    rcases List.mem_map.mp hta with ⟨x, _, rfl⟩
    exact status_markRunningDone x

/-- Witness for C6: overwriting a turn that had partial content and a
running search tool. -/
theorem c6_witness :
    ∃ m', (reducer partialState (Action.message ("final"))).messages = [] ++ [m'] ∧
      m'.content = "final" ∧ m'.role = partialAssistant.role ∧
      m'.isStreaming = partialAssistant.isStreaming ∧
      m'.toolActivity.map ToolActivity.tool =
        partialAssistant.toolActivity.map ToolActivity.tool ∧
      ∀ ta ∈ m'.toolActivity, ta.status = TAStatus.done :=
  c6_message_overwrites partialState [] partialAssistant rfl ("final")

/-- C7: an error event appends a formatted note to a trailing assistant
turn and finalizes it, leaves the message list unchanged when the
trailing turn is a user turn, and is dropped on an empty transcript. -/
theorem c7_error_append_or_drop (s : State) (emsg : String) :
    (s.messages = [] → (reducer s (Action.error emsg)).messages = []) ∧
    (∀ init m, s.messages = init ++ [m] → m.role = Role.user →
      (reducer s (Action.error emsg)).messages = s.messages) ∧
    (∀ init m, s.messages = init ++ [m] → m.role = Role.assistant →
      (reducer s (Action.error emsg)).messages =
        init ++
          [{ m with content := m.content ++ errorNote emsg, isStreaming := false }]) := by
  refine ⟨?_, ?_, ?_⟩
  · intro h
    show (match s.messages.getLast? with
      | some last =>
          if last.role = Role.assistant then
            updateLast (fun (l : ChatMessage) =>
              { l with content := l.content ++ errorNote emsg, isStreaming := false })
              s.messages
          else s.messages
      | none => s.messages) = []
    rw [h]
    rfl
  · intro init m h hrole
    have hne : ¬ m.role = Role.assistant := by
      rw [hrole]
      decide
    show (match s.messages.getLast? with
      | some last =>
          if last.role = Role.assistant then
            updateLast (fun (l : ChatMessage) =>
              { l with content := l.content ++ errorNote emsg, isStreaming := false })
              s.messages
          else s.messages
      | none => s.messages) = s.messages
    rw [h, List.getLast?_concat]
    simp only [if_neg hne]
  · intro init m h hrole
    show (match s.messages.getLast? with
      | some last =>
          if last.role = Role.assistant then
            updateLast (fun (l : ChatMessage) =>
              { l with content := l.content ++ errorNote emsg, isStreaming := false })
              s.messages
          else s.messages
      | none => s.messages) = _
    rw [h, List.getLast?_concat]
    simp only [hrole, if_true, updateLast_concat]

/-- Witness for C7 at an empty transcript, a trailing user turn, and a
trailing assistant turn with partial content. -/
theorem c7_witness :
    (reducer initialState (Action.error ("boom"))).messages = [] ∧
    (reducer userTrailState (Action.error ("boom"))).messages =
      userTrailState.messages ∧
    (reducer partialState (Action.error ("boom"))).messages =
      [] ++
        [{ partialAssistant with
           content := partialAssistant.content ++ errorNote ("boom"),
           isStreaming := false }] :=
  ⟨(c7_error_append_or_drop initialState ("boom")).1 rfl,
   (c7_error_append_or_drop userTrailState ("boom")).2.1 [] userTurn rfl rfl,
   (c7_error_append_or_drop partialState ("boom")).2.2 [] partialAssistant rfl rfl⟩

/-! Counting lemmas for the tool-activity ledger. -/

theorem runningFor_append (t : String) (l₁ l₂ : List ToolActivity) :
    runningFor t (l₁ ++ l₂) = runningFor t l₁ + runningFor t l₂ :=
  List.countP_append _ _ _

theorem runningFor_map_markRunningDone (t : String) (l : List ToolActivity) :
    runningFor t (l.map markRunningDone) = 0 := by
  induction l with
  | nil => rfl
  | cons ta l ih =>
      unfold runningFor at ih ⊢
      rw [List.map_cons, List.countP_cons, ih, status_markRunningDone]
      simp

theorem runningFor_map_endTool_self (t : String) (l : List ToolActivity) :
    runningFor t (l.map (endTool t)) = 0 := by
  induction l with
  | nil => rfl
  | cons ta l ih =>
      unfold runningFor at ih ⊢
      rw [List.map_cons, List.countP_cons, ih]
      by_cases hc : ta.tool = t ∧ ta.status = TAStatus.running
      · simp [endTool, hc]
      · rw [not_and_or] at hc
        rcases hc with hc | hc <;> simp [endTool, hc]

theorem runningFor_map_endTool_other (t t' : String) (h : ¬ t' = t)
    (l : List ToolActivity) :
    runningFor t' (l.map (endTool t)) = runningFor t' l := by
  induction l with
  | nil => rfl
  | cons ta l ih =>
      unfold runningFor at ih ⊢
      rw [List.map_cons, List.countP_cons, List.countP_cons, ih]
      by_cases hc : ta.tool = t ∧ ta.status = TAStatus.running
      · have hne' : ¬ ta.tool = t' := fun he => h (he.symm.trans hc.1)
        have hne : ¬ (endTool t ta).tool = t' := by
          simpa [endTool, hc] using hne'
        simp [hne, hne']
      · simp [endTool, hc]

theorem runningFor_push_self (t : String) :
    runningFor t [⟨t, TAStatus.running⟩] = 1 := by
  simp [runningFor]

theorem runningFor_push_other (t t' : String) (h : ¬ t' = t) :
    runningFor t' [⟨t, TAStatus.running⟩] = 0 := by
  simp [runningFor]
  intro he
  exact absurd he.symm h

/-- The ledger produced by a tool-scoped status event holds at most one
running entry for any name. -/
theorem ledgerInv_statusToolLedger (tool : String) (l : List ToolActivity) :
    ledgerInv (statusToolLedger tool l) := by
  intro t
  unfold statusToolLedger
  by_cases hb : (l.map markRunningDone).any
      (fun ta => ta.tool == tool && ta.status == TAStatus.running) = true
  · simp only [hb, if_true]
    rw [runningFor_map_markRunningDone]
    exact Nat.zero_le 1
  · simp only [hb, if_false, Bool.false_eq_true]
    rw [runningFor_append, runningFor_map_markRunningDone, Nat.zero_add]
    by_cases ht : t = tool
    · subst ht
      rw [runningFor_push_self]
    · rw [runningFor_push_other tool t ht]
      exact Nat.zero_le 1

/-- Transport of the trailing ledger through a trailing-turn rewrite. -/
theorem ledgerLast_via (s : State) (a : Action) (f : ChatMessage → ChatMessage)
    (g : List ToolActivity → List ToolActivity)
    (hmsg : (reducer s a).messages = updateLast f s.messages)
    (hg : ∀ m, (f m).toolActivity = g m.toolActivity) :
    ledgerLast (reducer s a) = g (ledgerLast s) ∨
      (ledgerLast (reducer s a) = [] ∧ ledgerLast s = []) := by
  unfold ledgerLast
  rw [hmsg, getLast?_updateLast]
  cases s.messages.getLast? with
  | none => exact Or.inr ⟨rfl, rfl⟩
  | some m => exact Or.inl (hg m)

/-- One streaming event preserves the at-most-one-running-per-name
invariant of the trailing ledger, provided a tool_start event only fires
for a tool with no running entry. -/
theorem ledgerInv_step (s : State) (a : Action) (ha : streamingEvent a = true)
    (hfresh : ∀ t, a = Action.toolStart t → runningFor t (ledgerLast s) = 0)
    (hinv : ledgerInv (ledgerLast s)) :
    ledgerInv (ledgerLast (reducer s a)) := by
  cases a with
  | userSend c => exact Bool.noConfusion ha
  | assistantStart => exact Bool.noConfusion ha
  | loadHistory ms => exact Bool.noConfusion ha
  | setSessionId sid => exact Bool.noConfusion ha
  | setInitializing v => exact Bool.noConfusion ha
  | delta c =>
      rcases ledgerLast_via s (Action.delta c)
        (fun last => { last with content := last.content ++ c })
        (fun l => l) rfl (fun m => rfl) with h | ⟨h, _⟩
      · rw [h]
        exact hinv
      · rw [h]
        intro t
        exact Nat.zero_le 1
  | status st =>
      rcases ledgerLast_via s (Action.status st)
        (fun last =>
          if strStartsWith st toolTag then
            { last with toolActivity := statusToolLedger (strDrop st 5) last.toolActivity }
          else
            { last with toolActivity := last.toolActivity.map markRunningDone })
        (fun l =>
          if strStartsWith st toolTag then statusToolLedger (strDrop st 5) l
          else l.map markRunningDone)
        rfl
        (fun m => by by_cases hb : strStartsWith st toolTag = true <;> simp [hb])
          with h | ⟨h, _⟩
      · rw [h]
        by_cases hb : strStartsWith st toolTag = true
        · rw [if_pos hb]
          exact ledgerInv_statusToolLedger _ _
        · rw [if_neg hb]
          intro t
          rw [runningFor_map_markRunningDone]
          exact Nat.zero_le 1
      · rw [h]
        intro t
        exact Nat.zero_le 1
  | message c =>
      rcases ledgerLast_via s (Action.message c)
        (fun last =>
          { last with content := c, toolActivity := last.toolActivity.map markRunningDone })
        (fun l => l.map markRunningDone) rfl (fun m => rfl) with h | ⟨h, _⟩
      · rw [h]
        intro t
        rw [runningFor_map_markRunningDone]
        exact Nat.zero_le 1
      · rw [h]
        intro t
        exact Nat.zero_le 1
  | toolStart t =>
      rcases ledgerLast_via s (Action.toolStart t)
        (fun last =>
          { last with toolActivity := last.toolActivity ++ [⟨t, TAStatus.running⟩] })
        (fun l => l ++ [⟨t, TAStatus.running⟩]) rfl (fun m => rfl) with h | ⟨h, _⟩
      · rw [h]
        intro t'
        rw [runningFor_append]
        by_cases ht : t' = t
        · subst ht
          rw [hfresh t' rfl, runningFor_push_self]
        · rw [runningFor_push_other t t' ht, Nat.add_zero]
          exact hinv t'
      · rw [h]
        intro t'
        exact Nat.zero_le 1
  | toolEnd t =>
      rcases ledgerLast_via s (Action.toolEnd t)
        (fun last => { last with toolActivity := last.toolActivity.map (endTool t) })
        (fun l => l.map (endTool t)) rfl (fun m => rfl) with h | ⟨h, _⟩
      · rw [h]
        intro t'
        by_cases ht : t' = t
        · subst ht
          rw [runningFor_map_endTool_self]
          exact Nat.zero_le 1
        · rw [runningFor_map_endTool_other t t' ht]
          exact hinv t'
      · rw [h]
        intro t'
        exact Nat.zero_le 1
  | done =>
      rcases ledgerLast_via s Action.done
        (fun last => { last with isStreaming := false })
        (fun l => l) rfl (fun m => rfl) with h | ⟨h, _⟩
      · rw [h]
        exact hinv
      · rw [h]
        intro t
        exact Nat.zero_le 1
  | error emsg =>
      rcases ledgerLast_via s (Action.error emsg)
        (fun l =>
          if l.role = Role.assistant then
            { l with content := l.content ++ errorNote emsg, isStreaming := false }
          else l)
        (fun l => l)
        (error_messages_shape s emsg)
        (fun m => by by_cases hr : m.role = Role.assistant <;> simp [hr])
          with h | ⟨h, _⟩
      · rw [h]
        exact hinv
      · rw [h]
        intro t
        exact Nat.zero_le 1

/-- Counterexample to C1 as stated: two tool_start events for the same
name leave the trailing ledger with two running entries for that name,
so the at-most-one-running invariant does not survive arbitrary
tool_start events. -/
theorem c1_counterexample :
    ¬ runningFor ("x")
        (ledgerLast (applyActions freshState
          [Action.toolStart ("x"), Action.toolStart ("x")])) ≤ 1 := by
  decide

/-- C1 (amended): over any sequence of streaming events in which
tool_start is only fired for a tool with no running ledger entry, the
trailing turn's ledger keeps at most one running entry per tool name
after every event. -/
theorem c1_running_at_most_one_of_safe (s : State) (as : List Action)
    (hinv : ledgerInv (ledgerLast s)) (hsafe : safeSeq s as = true) :
    ledgerInv (ledgerLast (applyActions s as)) := by
  induction as generalizing s with
  | nil => exact hinv
  | cons a rest ih =>
      rw [safeSeq, Bool.and_eq_true, Bool.and_eq_true] at hsafe
      obtain ⟨⟨ha, hguard⟩, h2⟩ := hsafe
      show ledgerInv (ledgerLast (applyActions (reducer s a) rest))
      refine ih (reducer s a) ?_ h2
      refine ledgerInv_step s a ha ?_ hinv
      intro t ht
      subst ht
      exact of_decide_eq_true hguard

/-- Witness for C1: a safe re-invocation sequence for the same tool. -/
theorem c1_witness :
    ledgerInv (ledgerLast (applyActions freshState
      [Action.toolStart ("x"), Action.toolEnd ("x"), Action.toolStart ("x")])) :=
  c1_running_at_most_one_of_safe freshState
    [Action.toolStart ("x"), Action.toolEnd ("x"), Action.toolStart ("x")]
    (fun t => Nat.zero_le 1) (by decide)

/-- C2: evaluation of the reducer at the failing input.  With the tool
search already running, a status event for tool:search transitions the
existing entry to done and appends a fresh running entry, instead of
being a no-op on the ledger: the alreadyTracked guard is computed after
every running entry has been reset to done, so it never fires. -/
theorem c2_status_repeated_start_duplicates :
    ledgerLast (reducer partialState (Action.status ("tool:search"))) =
      [⟨"search", TAStatus.done⟩, ⟨"search", TAStatus.running⟩] ∧
    ¬ ledgerLast (reducer partialState (Action.status ("tool:search"))) =
        ledgerLast partialState := by
  decide

/-- A turn with two running entries for the same tool, reached by two
tool_start events. -/
def dupRunState : State :=
  applyActions freshState [Action.toolStart ("x"), Action.toolStart ("x")]

/-- Counterexample to C3 as stated: with two running entries matching x,
tool_end x also transitions the earlier entry to done rather than
leaving it unchanged. -/
theorem c3_counterexample :
    (ledgerLast dupRunState).get? 0 = some ⟨"x", TAStatus.running⟩ ∧
    (ledgerLast (reducer dupRunState (Action.toolEnd ("x")))).get? 0 =
      some ⟨"x", TAStatus.done⟩ := by
  decide

/-- C3 (amended): tool_end transitions every running ledger entry whose
name matches to done, leaves all other entries and the turn's other
fields unchanged, preserves the ledger's length and order, and is a
no-op when no running entry matches. -/
theorem c3_toolEnd_ends_matching_running (s : State) (init : List ChatMessage)
    (m : ChatMessage) (h : s.messages = init ++ [m]) (t : String) :
    ∃ m', (reducer s (Action.toolEnd t)).messages = init ++ [m'] ∧
      m'.content = m.content ∧ m'.role = m.role ∧ m'.isStreaming = m.isStreaming ∧
      m'.toolActivity.length = m.toolActivity.length ∧
      (∀ i (hi : i < m.toolActivity.length) (hi' : i < m'.toolActivity.length),
        m'.toolActivity.get ⟨i, hi'⟩ =
          (if (m.toolActivity.get ⟨i, hi⟩).tool = t ∧
              (m.toolActivity.get ⟨i, hi⟩).status = TAStatus.running
           then { m.toolActivity.get ⟨i, hi⟩ with status := TAStatus.done }
           else m.toolActivity.get ⟨i, hi⟩)) ∧
      ((∀ ta ∈ m.toolActivity, ¬ (ta.tool = t ∧ ta.status = TAStatus.running)) →
        m' = m) := by
  refine ⟨{ m with toolActivity := m.toolActivity.map (endTool t) },
    ?_, rfl, rfl, rfl, List.length_map _ _, ?_, ?_⟩
  · show updateLast (fun last =>
      { last with toolActivity := last.toolActivity.map (endTool t) }) s.messages = _
    rw [h, updateLast_concat]
  · intro i hi hi'
    show (m.toolActivity.map (endTool t)).get ⟨i, hi'⟩ = _
    rw [List.get_map]
    rfl
  · intro hno
    have hmap : m.toolActivity.map (endTool t) = m.toolActivity := by
      have : m.toolActivity.map (endTool t) = m.toolActivity.map id :=
        List.map_congr_left (fun ta hta => by
          unfold endTool
          rw [if_neg (hno ta hta)]
          rfl)
      rw [this, List.map_id]
    show ({ m with toolActivity := m.toolActivity.map (endTool t) } : ChatMessage) = m
    rw [hmap]

/-- Witness for C3's amended statement on a turn with one running search
entry. -/
theorem c3_witness :
    ∃ m', (reducer partialState (Action.toolEnd ("search"))).messages = [] ++ [m'] ∧
      m'.content = partialAssistant.content ∧ m'.role = partialAssistant.role ∧
      m'.isStreaming = partialAssistant.isStreaming ∧
      m'.toolActivity.length = partialAssistant.toolActivity.length ∧
      (∀ i (hi : i < partialAssistant.toolActivity.length)
          (hi' : i < m'.toolActivity.length),
        m'.toolActivity.get ⟨i, hi'⟩ =
          (if (partialAssistant.toolActivity.get ⟨i, hi⟩).tool = "search" ∧
              (partialAssistant.toolActivity.get ⟨i, hi⟩).status = TAStatus.running
           then { partialAssistant.toolActivity.get ⟨i, hi⟩ with
                  status := TAStatus.done }
           else partialAssistant.toolActivity.get ⟨i, hi⟩)) ∧
      ((∀ ta ∈ partialAssistant.toolActivity,
          ¬ (ta.tool = "search" ∧ ta.status = TAStatus.running)) → m' = partialAssistant) :=
  c3_toolEnd_ends_matching_running partialState [] partialAssistant rfl ("search")

/-! Lemmas about the stream-consumption paths of handleSend. -/

theorem streamingEvent_actionOfEvent (e : SSEEvent) :
    streamingEvent (actionOfEvent e) = true := by
  cases e <;> rfl

theorem trailingRole_reducer (s : State) (a : Action) (ha : streamingEvent a = true) :
    trailingRole (reducer s a) = trailingRole s := by
  obtain ⟨f, hrole, hmsg, _, _⟩ := reducer_shape s a ha
  unfold trailingRole
  rw [hmsg, getLast?_updateLast]
  cases s.messages.getLast? with
  | none => rfl
  | some m => simp [hrole m]

theorem trailingRole_applyEvents (s : State) (evs : List SSEEvent) :
    trailingRole (applyEvents s evs) = trailingRole s := by
  induction evs generalizing s with
  | nil => rfl
  | cons e evs ih =>
      show trailingRole (applyEvents (reducer s (actionOfEvent e)) evs) = _
      rw [ih, trailingRole_reducer _ _ (streamingEvent_actionOfEvent e)]

theorem trailingRole_afterStart (s : State) (c : String) :
    trailingRole (afterStart s c) = some Role.assistant := by
  unfold trailingRole afterStart
  show (((s.messages ++ [ChatMessage.mk Role.user c false []]) ++
      [ChatMessage.mk Role.assistant "" true []]).getLast?).map ChatMessage.role =
    some Role.assistant
  rw [List.getLast?_concat]
  rfl

theorem trailingContent_afterStart (s : State) (c : String) :
    trailingContent (afterStart s c) = some "" := by
  unfold trailingContent afterStart
  show (((s.messages ++ [ChatMessage.mk Role.user c false []]) ++
      [ChatMessage.mk Role.assistant "" true []]).getLast?).map ChatMessage.content =
    some ""
  rw [List.getLast?_concat]
  rfl

theorem trailingContent_done (s : State) :
    trailingContent (reducer s Action.done) = trailingContent s := by
  unfold trailingContent
  show ((updateLast (fun last => { last with isStreaming := false })
      s.messages).getLast?).map ChatMessage.content = _
  rw [getLast?_updateLast]
  cases s.messages.getLast? <;> rfl

theorem trailingContent_error_assistant (s : State) (emsg : String)
    (h : trailingRole s = some Role.assistant) :
    trailingContent (reducer s (Action.error emsg)) =
      (trailingContent s).map (fun c => c ++ errorNote emsg) := by
  unfold trailingContent
  rw [error_messages_shape, getLast?_updateLast]
  unfold trailingRole at h
  cases hl : s.messages.getLast? with
  | none =>
      rw [hl] at h
      exact absurd h (by simp)
  | some m =>
      rw [hl] at h
      have hm : m.role = Role.assistant := by simpa using h
      simp [hm]

/-- C4: a caller abort leaves the state exactly as the delivered events
left it, appending nothing; a non-success response yields exactly one
synthetic error event whose note ends up appended to the trailing
assistant turn; and any other thrown failure appends the formatted
error note to the trailing assistant turn's accumulated content. -/
theorem c4_cancel_silent_fault_noted (s : State) (c : String) (evs : List SSEEvent)
    (sc : Nat) (stx em : String) :
    handleSend s c (StreamOutcome.aborted evs) = applyEvents (afterStart s c) evs ∧
    streamEvents (StreamOutcome.httpError sc stx) = [SSEEvent.error (httpMsg sc stx)] ∧
    trailingContent (handleSend s c (StreamOutcome.httpError sc stx)) =
      some (errorNote (httpMsg sc stx)) ∧
    trailingRole (handleSend s c (StreamOutcome.failed evs em)) = some Role.assistant ∧
    trailingContent (handleSend s c (StreamOutcome.failed evs em)) =
      (trailingContent (applyEvents (afterStart s c) evs)).map
        (fun t => t ++ errorNote em) := by
  refine ⟨rfl, rfl, ?_, ?_, ?_⟩
  · show trailingContent
      (reducer (reducer (afterStart s c) (Action.error (httpMsg sc stx))) Action.done) = _
    rw [trailingContent_done,
      trailingContent_error_assistant _ _ (trailingRole_afterStart s c),
      trailingContent_afterStart]
    show some ("" ++ errorNote (httpMsg sc stx)) = _
    rw [String.empty_append]
  · show trailingRole
      (reducer (applyEvents (afterStart s c) evs) (Action.error em)) = _
    rw [trailingRole_reducer _ (Action.error em) rfl, trailingRole_applyEvents,
      trailingRole_afterStart]
  · show trailingContent
      (reducer (applyEvents (afterStart s c) evs) (Action.error em)) = _
    rw [trailingContent_error_assistant]
    rw [trailingRole_applyEvents, trailingRole_afterStart]

/-- Counterexample to C8 as stated: when session creation fails, both
the init effect and handleNewChat clear the initializing flag instead
of leaving it set. -/
theorem c8_counterexample :
    (initSession initialState none FetchResult.failed
        CreateResult.failed).isInitializing = false ∧
    (handleNewChat initialState CreateResult.failed).isInitializing = false :=
  ⟨rfl, rfl⟩

/-- C8 (amended): a failed session creation is surfaced only via the
operator log as far as the reducer state goes: the session id is left
unchanged, the reset path leaves the transcript cleared, and the
initializing flag is cleared afterwards rather than left set. -/
theorem c8_create_failure_clears_initializing (s : State) (sid : String) :
    (initSession s none FetchResult.failed CreateResult.failed).isInitializing = false ∧
    (initSession s none FetchResult.failed CreateResult.failed).sessionId = s.sessionId ∧
    (initSession s none FetchResult.failed CreateResult.failed).messages = s.messages ∧
    (initSession s (some sid) FetchResult.inactive
        CreateResult.failed).isInitializing = false ∧
    (initSession s (some sid) FetchResult.failed
        CreateResult.failed).isInitializing = false ∧
    (handleNewChat s CreateResult.failed).isInitializing = false ∧
    (handleNewChat s CreateResult.failed).sessionId = s.sessionId ∧
    (handleNewChat s CreateResult.failed).messages = [] :=
  ⟨rfl, rfl, rfl, rfl, rfl, rfl, rfl, rfl⟩

end Chat
